import Mathlib

/-!
Verification development for the party-planner bot.

The relevant parts of `src/bot` are shallowly embedded below:

* the PostgreSQL tables of `src/bot/database.py` become lists of records in
  a `DB` structure, and each database function becomes a pure Lean function
  on `DB` (SQL `SERIAL` ids become a max-plus-one counter, the wall-clock
  timestamp columns become an insertion counter — no claim depends on them);
* the dialogue step handlers of `src/bot/handlers/*.py` become functions from
  their inputs (database, scratch values, message text) to a result record
  holding the new database and the returned conversation state
  (`ConversationHandler.END` is the `Next.done` constructor);
* the debounced notification timer of `src/bot/handlers/party_info.py`
  becomes an explicit job-queue state machine with absolute fire times.
-/

/-- A row of the `parties` table (with the migrated info columns). -/
structure Party where
  id : Nat
  name : String
  code : String
  creator_id : Int
  info_datetime : Option String
  info_address : Option String
  info_map_link : Option String
  info_description : Option String
deriving DecidableEq

/-- A row of the `party_members` table. `joined_at` is modelled as an
insertion counter standing in for the ISO timestamp string. -/
structure Member where
  party_id : Nat
  telegram_id : Int
  telegram_name : String
  joined_at : Nat
  is_admin : Bool
deriving DecidableEq

/-- A row of the `fillings` table. `created_at` is an insertion counter. -/
structure Filling where
  id : Nat
  party_id : Nat
  name : String
  added_by_id : Int
  added_by_name : String
  created_at : Nat
deriving DecidableEq

/-- A row of the ratings storage (see `save_rating` below). -/
structure Rating where
  party_id : Nat
  telegram_id : Int
  rating : Nat
deriving DecidableEq

/-- The database state: one list per table. -/
structure DB where
  parties : List Party
  members : List Member
  fillings : List Filling
  ratings : List Rating
deriving DecidableEq

/-- Fresh id for a new party (models the `SERIAL` primary key). -/
def nextPartyId (db : DB) : Nat :=
  (db.parties.map (fun p => p.id)).foldr Nat.max 0 + 1

/-- Fresh id for a new filling (models the `SERIAL` primary key). -/
def nextFillingId (db : DB) : Nat :=
  (db.fillings.map (fun f => f.id)).foldr Nat.max 0 + 1

/-- ASCII lowering of one character (the effect of Python `str.lower` and
SQL `LOWER` on the ASCII range). -/
def lowerChar (c : Char) : Char :=
  if 'A' ≤ c ∧ c ≤ 'Z' then Char.ofNat (c.toNat + 32) else c

/-- Python `str.lower()` / SQL `LOWER`, character-wise. -/
def pyLower (s : String) : String := ⟨s.data.map lowerChar⟩

/-- Python `str.strip()`: drop leading and trailing whitespace. -/
def pyStrip (s : String) : String :=
  ⟨(s.data.dropWhile Char.isWhitespace).reverse.dropWhile Char.isWhitespace |>.reverse⟩

/-- `has_party_with_name` of `database.py`: case-insensitive name check
among the creator's parties. -/
def has_party_with_name (db : DB) (creator_id : Int) (name : String) : Bool :=
  db.parties.any (fun p => p.creator_id == creator_id && pyLower p.name == pyLower name)

/-- `create_party` of `database.py`: insert and return the new id. -/
def create_party (db : DB) (name code : String) (creator_id : Int) : Nat × DB :=
  let pid := nextPartyId db
  (pid, { db with parties := db.parties ++ [⟨pid, name, code, creator_id, none, none, none, none⟩] })

/-- `get_party_by_id` of `database.py` (`fetchrow`: first matching row). -/
def get_party_by_id (db : DB) (party_id : Nat) : Option Party :=
  db.parties.find? (fun p => p.id == party_id)

/-- The info fields a `parties` row carries (projection used by `get_party_info`). -/
structure PartyInfo where
  info_datetime : Option String
  info_address : Option String
  info_map_link : Option String
  info_description : Option String
deriving DecidableEq

/-- `get_party_info` of `database.py`. -/
def get_party_info (db : DB) (party_id : Nat) : Option PartyInfo :=
  (get_party_by_id db party_id).map
    (fun p => ⟨p.info_datetime, p.info_address, p.info_map_link, p.info_description⟩)

/-- `INFO_FIELDS` of `database.py`. -/
def INFO_FIELDS : List String :=
  ["info_datetime", "info_address", "info_map_link", "info_description"]

/-- Set one info column of one party row. -/
def setInfoField (p : Party) (field : String) (value : Option String) : Party :=
  if field == "info_datetime" then { p with info_datetime := value }
  else if field == "info_address" then { p with info_address := value }
  else if field == "info_map_link" then { p with info_map_link := value }
  else if field == "info_description" then { p with info_description := value }
  else p

/-- `update_party_info` of `database.py`. A field outside `INFO_FIELDS`
raises `ValueError` in the source; that is the `none` result here. -/
def update_party_info (db : DB) (party_id : Nat) (field : String) (value : Option String) :
    Option DB :=
  if INFO_FIELDS.contains field then
    some { db with parties := db.parties.map (fun p =>
      if p.id == party_id then setInfoField p field value else p) }
  else none

/-- `add_member` of `database.py`: insert, or refresh the display name on a
unique-key conflict. Returns `true` when newly added. -/
def add_member (db : DB) (party_id : Nat) (telegram_id : Int) (telegram_name : String)
    (is_admin : Bool) : Bool × DB :=
  if db.members.any (fun m => m.party_id == party_id && m.telegram_id == telegram_id) then
    (false, { db with members := db.members.map (fun m =>
      if m.party_id == party_id && m.telegram_id == telegram_id then
        { m with telegram_name := telegram_name } else m) })
  else
    (true, { db with members := db.members ++
      [⟨party_id, telegram_id, telegram_name, db.members.length, is_admin⟩] })

/-- `get_members` of `database.py` (the `ORDER BY joined_at` of the source
coincides with insertion order here). -/
def get_members (db : DB) (party_id : Nat) : List Member :=
  db.members.filter (fun m => m.party_id == party_id)

/-- `get_member` of `database.py`. -/
def get_member (db : DB) (party_id : Nat) (telegram_id : Int) : Option Member :=
  db.members.find? (fun m => m.party_id == party_id && m.telegram_id == telegram_id)

/-- `remove_member` of `database.py`: one transaction deleting the member's
fillings in that party and then the membership row. -/
def remove_member (db : DB) (party_id : Nat) (telegram_id : Int) : DB :=
  { db with
    fillings := db.fillings.filter
      (fun f => !(f.party_id == party_id && f.added_by_id == telegram_id)),
    members := db.members.filter
      (fun m => !(m.party_id == party_id && m.telegram_id == telegram_id)) }

/-- `is_user_admin` of `database.py`. -/
def is_user_admin (db : DB) (party_id : Nat) (telegram_id : Int) : Bool :=
  match get_member db party_id telegram_id with
  | some m => m.is_admin
  | none => false

/-- `delete_party` of `database.py`: one transaction deleting the party's
fillings, members, and the party row. -/
def delete_party (db : DB) (party_id : Nat) : DB :=
  { db with
    fillings := db.fillings.filter (fun f => !(f.party_id == party_id)),
    members := db.members.filter (fun m => !(m.party_id == party_id)),
    parties := db.parties.filter (fun p => !(p.id == party_id)) }

/-- `search_members` of `database.py` (`ILIKE %query%`): case-insensitive
substring match on the display name. -/
def search_members (db : DB) (party_id : Nat) (query : String) : List Member :=
  db.members.filter (fun m =>
    m.party_id == party_id && ((pyLower m.telegram_name).splitOn (pyLower query)).length > 1)

/-- `add_filling` of `database.py`: insert and return the new id. -/
def add_filling (db : DB) (party_id : Nat) (name : String) (added_by_id : Int)
    (added_by_name : String) : Nat × DB :=
  let fid := nextFillingId db
  (fid, { db with fillings :=
    db.fillings ++ [⟨fid, party_id, name, added_by_id, added_by_name, db.fillings.length⟩] })

/-- `get_fillings` of `database.py`. -/
def get_fillings (db : DB) (party_id : Nat) : List Filling :=
  db.fillings.filter (fun f => f.party_id == party_id)

/-- `get_user_fillings` of `database.py`. -/
def get_user_fillings (db : DB) (party_id : Nat) (telegram_id : Int) : List Filling :=
  db.fillings.filter (fun f => f.party_id == party_id && f.added_by_id == telegram_id)

/-- `get_filling_by_id` of `database.py`. -/
def get_filling_by_id (db : DB) (filling_id : Nat) : Option Filling :=
  db.fillings.find? (fun f => f.id == filling_id)

/-- `find_duplicate_filling` of `database.py`:
`LOWER(name) = LOWER($2)` within one party; `fetchrow` returns the first row. -/
def find_duplicate_filling (db : DB) (party_id : Nat) (name : String) : Option Filling :=
  db.fillings.find? (fun f => f.party_id == party_id && pyLower f.name == pyLower name)

/-- `rename_filling` of `database.py`. -/
def rename_filling (db : DB) (filling_id : Nat) (new_name : String) : DB :=
  { db with fillings := db.fillings.map (fun f =>
    if f.id == filling_id then { f with name := new_name } else f) }

/-- `delete_filling` of `database.py`. -/
def delete_filling (db : DB) (filling_id : Nat) : DB :=
  { db with fillings := db.fillings.filter (fun f => !(f.id == filling_id)) }

/-- Modelled from the spec: the Persistence Gateway's
`saveRating(partyId, userId, rating)` (spec section 6) with upsert semantics
(spec section 3: at most one rating per `(party, user)`; a later submission
overwrites the earlier one). The ratings functions called by
`src/bot/handlers/ratings.py` are not present under `src/`. -/
def save_rating (db : DB) (party_id : Nat) (telegram_id : Int) (rating : Nat) : DB :=
  { db with ratings := (db.ratings.filter (fun r =>
    !(r.party_id == party_id && r.telegram_id == telegram_id))) ++
    [⟨party_id, telegram_id, rating⟩] }

/-- Modelled from the spec: the Persistence Gateway's `getUserRating`
(spec section 6), the rating stored for `(party, user)` if any. -/
def get_user_rating (db : DB) (party_id : Nat) (telegram_id : Int) : Option Rating :=
  db.ratings.find? (fun r => r.party_id == party_id && r.telegram_id == telegram_id)

/-- Modelled from the spec: the Persistence Gateway's `getRatings`
(spec section 6), all ratings of a party. -/
def get_ratings (db : DB) (party_id : Nat) : List Rating :=
  db.ratings.filter (fun r => r.party_id == party_id)

/-! ### Conversation-handler embeddings

Each `receive_*` / `cancel_*` function below mirrors the Python handler of
the same name. The returned conversation state is `Next.toState s` for a
numeric state constant, `Next.done` for `ConversationHandler.END`, and
`Next.raised` for a raised exception (`update_party_info` on an invalid
field). Message texts and keyboards are presentation and are not modelled;
where the claims need them (duplicate re-prompts, notification recipients),
the relevant datum is returned explicitly. -/

/-- A handler's returned conversation state. -/
inductive Next where
  | toState (s : Nat)
  | done
  | raised
deriving DecidableEq

/-- `TYPING_PARTY_NAME` of `handlers/party.py`. -/
def TYPING_PARTY_NAME : Nat := 0

/-- `TYPING_FILLING_NAME` of `handlers/fillings.py`. -/
def TYPING_FILLING_NAME : Nat := 0

/-- `TYPING_RENAME` of `handlers/fillings.py`. -/
def TYPING_RENAME : Nat := 1

/-- `TYPING_SEARCH` of `handlers/members.py`. -/
def TYPING_SEARCH : Nat := 0

/-- `TYPING_INFO_VALUE` of `handlers/party_info.py`. -/
def TYPING_INFO_VALUE : Nat := 0

/-- `PICKING_DATE` of `handlers/party_info.py`. -/
def PICKING_DATE : Nat := 1

/-- `PICKING_TIME` of `handlers/party_info.py`. -/
def PICKING_TIME : Nat := 2

/-- `WAITING_CONTACT` of `handlers/party.py`. -/
def WAITING_CONTACT : Nat := 10

/-- `TYPING_BROADCAST` of `handlers/party.py`. -/
def TYPING_BROADCAST : Nat := 20

/-- `receive_party_name` of `handlers/party.py`. The random invite code of
`generate_party_code` is passed in as `code`. -/
def receive_party_name (db : DB) (user_id : Int) (display : String) (code : String)
    (text : String) : DB × Next :=
  let name := (pyStrip text)
  if name == "" then (db, .toState TYPING_PARTY_NAME)
  else if name.length > 100 then (db, .toState TYPING_PARTY_NAME)
  else if has_party_with_name db user_id name then (db, .toState TYPING_PARTY_NAME)
  else
    let res := create_party db name code user_id
    let res2 := add_member res.2 res.1 user_id display true
    (res2.2, .done)

/-- `cancel_conversation` of `handlers/party.py`: returns END. -/
def cancel_conversation : Next := .done

/-- Result of a fillings-dialogue step: new database, next state, and the
owner name shown in the duplicate re-prompt (if that branch was taken). -/
structure FillingStep where
  db : DB
  next : Next
  dupOwner : Option String
deriving DecidableEq

/-- `receive_filling_name` of `handlers/fillings.py`. -/
def receive_filling_name (db : DB) (party_id : Nat) (user_id : Int) (display : String)
    (text : String) : FillingStep :=
  match get_member db party_id user_id with
  | none => ⟨db, .done, none⟩
  | some _ =>
    let name := (pyStrip text)
    if name == "" then ⟨db, .toState TYPING_FILLING_NAME, none⟩
    else if name.length > 100 then ⟨db, .toState TYPING_FILLING_NAME, none⟩
    else
      match find_duplicate_filling db party_id name with
      | some dup => ⟨db, .toState TYPING_FILLING_NAME, some dup.added_by_name⟩
      | none =>
        let res := add_filling db party_id name user_id display
        ⟨res.2, .done, none⟩

/-- `cancel_add_filling` of `handlers/fillings.py`: both branches return END
(they differ only in the reply keyboard). -/
def cancel_add_filling (_party_id : Option Nat) : Next := .done

/-- `receive_rename` of `handlers/fillings.py`. The duplicate check excludes
the filling being renamed itself (`dup and dup["id"] != filling_id`). -/
def receive_rename (db : DB) (filling_id : Nat) (party_id : Nat) (user_id : Int)
    (text : String) : FillingStep :=
  match get_member db party_id user_id with
  | none => ⟨db, .done, none⟩
  | some _ =>
    let new_name := (pyStrip text)
    if new_name == "" then ⟨db, .toState TYPING_RENAME, none⟩
    else if new_name.length > 100 then ⟨db, .toState TYPING_RENAME, none⟩
    else
      match find_duplicate_filling db party_id new_name with
      | some dup =>
        if dup.id ≠ filling_id then ⟨db, .toState TYPING_RENAME, some dup.added_by_name⟩
        else ⟨rename_filling db filling_id new_name, .done, none⟩
      | none => ⟨rename_filling db filling_id new_name, .done, none⟩

/-- `cancel_rename` of `handlers/fillings.py`: both branches return END. -/
def cancel_rename (_party_id : Option Nat) : Next := .done

/-- Result of the member-search step: database (never modified), next state,
and the displayed search results. -/
structure SearchStep where
  db : DB
  next : Next
  results : List Member
deriving DecidableEq

/-- `receive_search_query` of `handlers/members.py`. -/
def receive_search_query (db : DB) (party_id : Nat) (text : String) : SearchStep :=
  let query_text := (pyStrip text)
  if query_text == "" then ⟨db, .toState TYPING_SEARCH, []⟩
  else ⟨db, .done, search_members db party_id query_text⟩

/-- `cancel_search` of `handlers/members.py`: both branches return END. -/
def cancel_search (_party_id : Option Nat) : Next := .done

/-- Result of the broadcast step: database (never modified), next state, and
the ids the message loop attempts to reach. -/
structure BroadcastStep where
  db : DB
  next : Next
  recipients : List Int
deriving DecidableEq

/-- `receive_broadcast_text` of `handlers/party.py`. -/
def receive_broadcast_text (db : DB) (party_id : Nat) (user_id : Int)
    (text0 : String) : BroadcastStep :=
  if !(is_user_admin db party_id user_id) then ⟨db, .done, []⟩
  else
    match get_party_by_id db party_id with
    | none => ⟨db, .done, []⟩
    | some _ =>
      let text := (pyStrip text0)
      if text == "" then ⟨db, .toState TYPING_BROADCAST, []⟩
      else if text.length > 1000 then ⟨db, .toState TYPING_BROADCAST, []⟩
      else
        ⟨db, .done, ((get_members db party_id).filter (fun m =>
          !(m.telegram_id == user_id))).map (fun m => m.telegram_id)⟩

/-- `cancel_broadcast` of `handlers/party.py`: all branches return END. -/
def cancel_broadcast (_party_id : Option Nat) : Next := .done

/-- `_contact_wait_text` of `handlers/party.py`: re-prompts, same state. -/
def contact_wait_text (db : DB) : DB × Next := (db, .toState WAITING_CONTACT)

/-- `cancel_invite_contact` of `handlers/party.py`: all branches return END. -/
def cancel_invite_contact (_party_id : Option Nat) : Next := .done

/-- `handle_rating_callback` of `handlers/ratings.py`: range check, party
check, membership check, then save. The boolean reports whether a rating
was persisted. -/
def handle_rating_callback (db : DB) (party_id : Nat) (rating : Nat) (user_id : Int) :
    DB × Bool :=
  if !(1 ≤ rating ∧ rating ≤ 5 : Bool) then (db, false)
  else
    match get_party_by_id db party_id with
    | none => (db, false)
    | some _ =>
      match get_member db party_id user_id with
      | none => (db, false)
      | some _ => (save_rating db party_id user_id rating, true)

/-! ### The debounced notification timer of `handlers/party_info.py` -/

/-- `NOTIFICATION_DELAY` of `handlers/party_info.py`: 30 time-units. -/
def NOTIFICATION_DELAY : Nat := 30

/-- A pending `job_queue.run_once` job: its name, its absolute fire time,
and its `data` payload `{party_id, admin_id}`. -/
structure Job where
  name : String
  fireAt : Nat
  party_id : Nat
  admin_id : Int
deriving DecidableEq

/-- The `job_name` used by `_schedule_info_notification`. -/
def infoJobName (party_id : Nat) : String := "info_notify_" ++ Nat.repr party_id

/-- The mutable world a party-info handler touches: the database, the
current time, and the pending job queue. -/
structure SysState where
  db : DB
  now : Nat
  jobs : List Job
deriving DecidableEq

/-- The job-queue effect of `_schedule_info_notification` of
`handlers/party_info.py`: remove every pending job with this party's name,
then schedule a fresh one firing `NOTIFICATION_DELAY` from now. -/
def scheduleJob (jobs : List Job) (now : Nat) (party_id : Nat) (admin_id : Int) : List Job :=
  (jobs.filter (fun j => !(j.name == infoJobName party_id))) ++
    [⟨infoJobName party_id, now + NOTIFICATION_DELAY, party_id, admin_id⟩]

/-- `_schedule_info_notification` on the world state. -/
def schedule_info_notification (st : SysState) (party_id : Nat) (admin_id : Int) : SysState :=
  { st with jobs := scheduleJob st.jobs st.now party_id admin_id }

/-- `_send_info_notification` of `handlers/party_info.py`: the job callback.
Returns the ids it sends the update message to — the empty list when the
party no longer exists (the callback then returns without doing anything). -/
def send_info_notification (db : DB) (party_id : Nat) (admin_id : Int) : List Int :=
  match get_party_by_id db party_id with
  | none => []
  | some _ =>
    ((get_members db party_id).filter (fun m => !(m.telegram_id == admin_id))).map
      (fun m => m.telegram_id)

/-! ### SetPartyInfo: date/time sub-flow and location handling -/

/-- A calendar date as picked by the inline calendar (`datetime.date`). -/
structure PDate where
  year : Nat
  month : Nat
  day : Nat
deriving DecidableEq

/-- The `%b` month abbreviation of `strftime`. -/
def monthAbbrev (m : Nat) : String :=
  (["Jan", "Feb", "Mar", "Apr", "May", "Jun",
    "Jul", "Aug", "Sep", "Oct", "Nov", "Dec"]).getD (m - 1) "Jan"

/-- Two-digit zero padding (`%d`, `{:02d}`). -/
def pad2 (n : Nat) : String := if n < 10 then "0" ++ Nat.repr n else Nat.repr n

/-- `picked_date.strftime('%b %d, %Y')`. -/
def fmtDate (d : PDate) : String :=
  monthAbbrev d.month ++ " " ++ pad2 d.day ++ ", " ++ Nat.repr d.year

/-- The stored datetime string of `_save_datetime`:
`f"{date} at {hour:02d}:{minute:02d}"`. -/
def fmtDatetime (d : PDate) (hour minute : Nat) : String :=
  fmtDate d ++ " at " ++ pad2 hour ++ ":" ++ pad2 minute

/-- Result of a SetPartyInfo step: the new world state and the next
conversation state. -/
structure InfoStep where
  st : SysState
  next : Next
deriving DecidableEq

/-- `_save_datetime` of `handlers/party_info.py`: persist the formatted
datetime, then (party still existing) arm the debounced notification. -/
def save_datetime (st : SysState) (party_id : Nat) (d : PDate) (hour minute : Nat)
    (admin_id : Int) : InfoStep :=
  match update_party_info st.db party_id "info_datetime" (some (fmtDatetime d hour minute)) with
  | none => ⟨st, .raised⟩
  | some db1 =>
    match get_party_by_id db1 party_id with
    | none => ⟨{ st with db := db1 }, .done⟩
    | some _ => ⟨schedule_info_notification { st with db := db1 } party_id admin_id, .done⟩

/-- The character class `[:.\s]` of the time regex (`\s` in its ASCII
extent; the input has already been stripped at the ends). -/
def isTimeSep (c : Char) : Bool :=
  c == ':' || c == '.' || c == ' ' || c == '\t' || c == '\n' ||
  c == '\x0b' || c == '\x0c' || c == '\r'

/-- Numeric value of a digit character. -/
def digitVal (c : Char) : Nat := c.toNat - '0'.toNat

/-- `re.match(r"^(\d{1,2})[:.\s]?(\d{2})$", raw)` with the two captured
groups converted by `int`. A match has 3 to 5 characters; on four
characters the greedy two-digit hour is tried first and the engine
backtracks to a one-digit hour followed by a separator. -/
def timeMatch (cs : List Char) : Option (Nat × Nat) :=
  match cs with
  | [a, b, c] =>
    if a.isDigit && b.isDigit && c.isDigit then
      some (digitVal a, 10 * digitVal b + digitVal c)
    else none
  | [a, b, c, d] =>
    if a.isDigit && b.isDigit && c.isDigit && d.isDigit then
      some (10 * digitVal a + digitVal b, 10 * digitVal c + digitVal d)
    else if a.isDigit && isTimeSep b && c.isDigit && d.isDigit then
      some (digitVal a, 10 * digitVal c + digitVal d)
    else none
  | [a, b, c, d, e] =>
    if a.isDigit && b.isDigit && isTimeSep c && d.isDigit && e.isDigit then
      some (10 * digitVal a + digitVal b, 10 * digitVal d + digitVal e)
    else none
  | _ => none

/-- `receive_time_text` of `handlers/party_info.py`. -/
def receive_time_text (st : SysState) (party_id : Nat) (picked_date : Option PDate)
    (admin_id : Int) (text : String) : InfoStep :=
  match picked_date with
  | none => ⟨st, .done⟩
  | some d =>
    let raw := (pyStrip text)
    match timeMatch raw.data with
    | none => ⟨st, .toState PICKING_TIME⟩
    | some hm =>
      if hm.1 ≤ 23 ∧ hm.2 ≤ 59 then save_datetime st party_id d hm.1 hm.2 admin_id
      else ⟨st, .toState PICKING_TIME⟩

/-- `receive_date_text` of `handlers/party_info.py`: re-prompts, same state. -/
def receive_date_text (st : SysState) : InfoStep := ⟨st, .toState PICKING_DATE⟩

/-- `receive_info_value` of `handlers/party_info.py`. -/
def receive_info_value (st : SysState) (party_id : Nat) (field : String) (user_id : Int)
    (text : String) : InfoStep :=
  if !(is_user_admin st.db party_id user_id) then ⟨st, .done⟩
  else
    let value := (pyStrip text)
    if value == "" then ⟨st, .toState TYPING_INFO_VALUE⟩
    else if value.length > 500 then ⟨st, .toState TYPING_INFO_VALUE⟩
    else if field == "info_map_link" &&
        !("http://".isPrefixOf value || "https://".isPrefixOf value) then
      ⟨st, .toState TYPING_INFO_VALUE⟩
    else
      match update_party_info st.db party_id field (some value) with
      | none => ⟨st, .raised⟩
      | some db1 =>
        match get_party_by_id db1 party_id with
        | none => ⟨{ st with db := db1 }, .done⟩
        | some _ => ⟨schedule_info_notification { st with db := db1 } party_id user_id, .done⟩

/-- The Google-Maps URL built by `receive_location`. The latitude and
longitude floats are modelled by their rendered decimal strings. -/
def mapsUrl (lat lon : String) : String :=
  "https://www.google.com/maps?q=" ++ lat ++ "," ++ lon

/-- `receive_location` of `handlers/party_info.py`: a shared pin is saved as
a map link; while editing the address field the dialogue then stays in
`TYPING_INFO_VALUE` for the address text, otherwise it completes. -/
def receive_location (st : SysState) (party_id : Nat) (field : String) (user_id : Int)
    (lat lon : String) : InfoStep :=
  if !(is_user_admin st.db party_id user_id) then ⟨st, .done⟩
  else if !(field == "info_address" || field == "info_map_link") then
    ⟨st, .toState TYPING_INFO_VALUE⟩
  else
    match update_party_info st.db party_id "info_map_link" (some (mapsUrl lat lon)) with
    | none => ⟨st, .raised⟩
    | some db1 =>
      match get_party_by_id db1 party_id with
      | none => ⟨{ st with db := db1 }, .done⟩
      | some _ =>
        let st1 := schedule_info_notification { st with db := db1 } party_id user_id
        if field == "info_address" then ⟨st1, .toState TYPING_INFO_VALUE⟩
        else ⟨st1, .done⟩

/-- `cancel_set_info` of `handlers/party_info.py`: all branches return END. -/
def cancel_set_info (_party_id : Option Nat) : Next := .done

/-- `clear_info_callback` of `handlers/party_info.py` used as a conversation
fallback: all branches return END. -/
def clear_info_fallback_result : Next := .done

/-! ### Member-removal call sites (`handlers/party.py`, `handlers/members.py`) -/

/-- `confirm_leave_callback` of `handlers/party.py`: party lookup, owner
guard, then `remove_member`. The boolean reports whether removal happened. -/
def confirm_leave_callback (db : DB) (party_id : Nat) (user_id : Int) : DB × Bool :=
  match get_party_by_id db party_id with
  | none => (db, false)
  | some party =>
    if party.creator_id == user_id then (db, false)
    else (remove_member db party_id user_id, true)

/-- `confirm_kick_callback` of `handlers/members.py`: party/admin guard,
owner guard, then `remove_member` on the target. -/
def confirm_kick_callback (db : DB) (party_id : Nat) (user_id target_id : Int) : DB × Bool :=
  match get_party_by_id db party_id with
  | none => (db, false)
  | some party =>
    if !(is_user_admin db party_id user_id) then (db, false)
    else if target_id == party.creator_id then (db, false)
    else (remove_member db party_id target_id, true)

/-- Number of stored ratings for one `(party, user)` pair. -/
def ratingCountFor (db : DB) (P : Nat) (U : Int) : Nat :=
  db.ratings.countP (fun x => x.party_id == P && x.telegram_id == U)

/-- A concrete party used by the witness theorems. -/
def sampleParty : Party := ⟨1, "NYE", "abc123XY", 100, none, none, none, none⟩

/-- A concrete database used by the witness theorems: one party, its admin
creator 100, a plain member 200 who contributed filling 7 "Pie", one rating. -/
def sampleDB : DB :=
  { parties := [sampleParty],
    members := [⟨1, 100, "@alice", 0, true⟩, ⟨1, 200, "@bob", 1, false⟩],
    fillings := [⟨7, 1, "Pie", 200, "@bob", 0⟩],
    ratings := [⟨1, 200, 4⟩] }

/-- A concrete database with an existing "Salad" filling, for the C6 and C7
witnesses. -/
def saladDB : DB :=
  { parties := [sampleParty],
    members := [⟨1, 100, "@alice", 0, true⟩, ⟨1, 200, "@bob", 1, false⟩],
    fillings := [⟨7, 1, "Salad", 200, "@bob", 0⟩],
    ratings := [] }

/-- A concrete world state for witnesses of the party-info handlers. -/
def sampleState : SysState := ⟨sampleDB, 0, []⟩

/-- A 101-character name (over the 100-character limit). -/
def longText101 : String := ⟨List.replicate 101 'x'⟩

/-- A 1001-character message (over the 1000-character limit). -/
def longText1001 : String := ⟨List.replicate 1001 'x'⟩

/-- `int()` applied to a captured group of one or two digit characters. -/
def capturedNat : List Char → Nat
  | [a] => digitVal a
  | [a, b] => 10 * digitVal a + digitVal b
  | _ => 0

/-- Declarative reading of the spec's regex `^(\d{1,2})[:.\s]?(\d{2})$`:
the whole input is one or two digits, then an optional single separator
from `[:.\s]`, then exactly two digits; the captured hour and minute are
the numeric values of the two digit groups. -/
def timeRegexSpec (cs : List Char) (h m : Nat) : Prop :=
  ∃ ds sep ms : List Char,
    cs = ds ++ sep ++ ms ∧
    1 ≤ ds.length ∧ ds.length ≤ 2 ∧ (∀ c ∈ ds, c.isDigit = true) ∧
    (sep = [] ∨ ∃ c, sep = [c] ∧ isTimeSep c = true) ∧
    ms.length = 2 ∧ (∀ c ∈ ms, c.isDigit = true) ∧
    h = capturedNat ds ∧ m = capturedNat ms

/-- Does a job belong to this party's info-notification key? -/
def isInfoJob (p : Nat) (j : Job) : Bool := j.name == infoJobName p

/-- Run a sequence of timestamped arm calls for party `p` against the job
queue: before each arm at time `t`, every job whose fire time has been
reached fires (moves to the fired list); the arm then runs
`scheduleJob` — cancel the party's pending job and schedule a fresh one.
Returns the pending queue and the fired jobs. -/
def runArms (p : Nat) : List Job → List Job → List (Nat × Int) → List Job × List Job
  | jobs, fired, [] => (jobs, fired)
  | jobs, fired, (t, a) :: rest =>
    runArms p (scheduleJob (jobs.filter (fun j => !(decide (j.fireAt ≤ t)))) t p a)
      (fired ++ jobs.filter (fun j => decide (j.fireAt ≤ t))) rest

/-- The arm times are nondecreasing and each consecutive gap is below the
debounce delay, starting from time `t`. -/
def chainFrom (t : Nat) : List (Nat × Int) → Bool
  | [] => true
  | (t', _) :: rest =>
    (decide (t ≤ t') && decide (t' < t + NOTIFICATION_DELAY)) && chainFrom t' rest

/-- The time and payload of the last arm call (given the first one). -/
def lastArm (t : Nat) (a : Int) : List (Nat × Int) → Nat × Int
  | [] => (t, a)
  | (t', a') :: rest => lastArm t' a' rest

/-! ### C2: dialogue routing tables and the cancel fallback

The source routes callback events by regex over `callback_data` strings;
following the spec's own abstraction (section 9: a typed discriminated
event shape "preserving the same routing decision table"), the callback
payloads the patterns distinguish become a tagged variant. -/

/-- Callback payloads distinguished by the registered patterns. -/
inductive CbData where
  | cancelBtn
  | editPartyInfo (pid : Nat)
  | clearInfoBtn (pid : Nat) (field : String)
  | inviteLink (pid : Nat)
  | calNav (payload : String)
  | pickTime (pid h m : Nat)
  | timePage (pid page : Nat)
  | otherData (s : String)
deriving DecidableEq

/-- An inbound event: text message, button callback, contact or location. -/
inductive Event where
  | textMsg (text : String) (isCommand : Bool)
  | callback (data : CbData)
  | contactShared
  | locationShared
deriving DecidableEq

/-- `filters.TEXT & ~filters.COMMAND`. -/
def matchText : Event → Bool
  | .textMsg _ c => !c
  | _ => false

/-- `filters.LOCATION`. -/
def matchLocation : Event → Bool
  | .locationShared => true
  | _ => false

/-- `filters.CONTACT`. -/
def matchContact : Event → Bool
  | .contactShared => true
  | _ => false

/-- Pattern `^cancel$`. -/
def matchCancelCb : Event → Bool
  | .callback .cancelBtn => true
  | _ => false

/-- Pattern `^edit_party_info:\d+$`. -/
def matchEditInfoCb : Event → Bool
  | .callback (.editPartyInfo _) => true
  | _ => false

/-- Pattern `^clear_info:\d+:info_\w+$`. -/
def matchClearInfoCb : Event → Bool
  | .callback (.clearInfoBtn _ _) => true
  | _ => false

/-- Pattern `^invite_link:\d+$`. -/
def matchInviteLinkCb : Event → Bool
  | .callback (.inviteLink _) => true
  | _ => false

/-- Pattern `^cbcal_` of the inline calendar. -/
def matchCalCb : Event → Bool
  | .callback (.calNav _) => true
  | _ => false

/-- Pattern `^pick_time:\d+:\d+:\d+$`. -/
def matchPickTimeCb : Event → Bool
  | .callback (.pickTime _ _ _) => true
  | _ => false

/-- Pattern `^time_page:\d+:\d+$`. -/
def matchTimePageCb : Event → Bool
  | .callback (.timePage _ _) => true
  | _ => false

/-- A scratch value (`context.user_data` entries hold ids, field names and
the picked date). -/
inductive Val where
  | nat (n : Nat)
  | str (s : String)
  | date (d : PDate)
deriving DecidableEq

/-- Read a numeric scratch entry (`context.user_data.get(key)`). -/
def lookupNat (sc : List (String × Val)) (k : String) : Option Nat :=
  match sc.find? (fun kv => kv.1 == k) with
  | some (_, Val.nat n) => some n
  | _ => none

/-- Modelled from the spec: the per-user Session of the Dialogue Engine
(spec section 3) — the active dialogue's current step and the scratch
mapping; the engine (the bot framework's conversation dispatcher) is not
under `src/`. -/
structure Session where
  step : Option Nat
  scratch : List (String × Val)
deriving DecidableEq

/-- A registered conversation fallback: its pattern and its handler (run on
the session scratch). -/
structure Fallback where
  matcher : Event → Bool
  run : List (String × Val) → Next

/-- One conversation's routing table: its states, each state's registered
handler patterns in order, and its fallbacks in order. -/
structure DialogueSpec where
  stepIds : List Nat
  stepMatchers : Nat → List (Event → Bool)
  fallbacks : List Fallback

/-- Modelled from the spec: applying a handler's returned marker to the
session (spec section 4.2 — `Complete()` is terminal and clears the
session; `Stay`/`Advance` keep or move the step; an exception leaves the
step as it was). -/
def applyNext (s : Nat) (scratch : List (String × Val)) : Next → Session
  | .done => ⟨none, []⟩
  | .toState s' => ⟨some s', scratch⟩
  | .raised => ⟨some s, scratch⟩

/-- Modelled from the spec: the Dialogue Engine's dispatch for an active
dialogue (spec section 4.2): fallbacks take precedence over the current
step's handlers; a step-handler match returns `none` here (those handlers
are modelled separately); an event matching nothing is ignored. -/
def handleActive (d : DialogueSpec) (s : Nat) (scratch : List (String × Val))
    (e : Event) : Option Session :=
  match d.fallbacks.find? (fun f => f.matcher e) with
  | some f => some (applyNext s scratch (f.run scratch))
  | none =>
    if (d.stepMatchers s).any (fun m => m e) then none
    else some ⟨some s, scratch⟩

/-- `create_party_conversation()` of `handlers/party.py`. -/
def create_party_conversation : DialogueSpec :=
  { stepIds := [TYPING_PARTY_NAME],
    stepMatchers := fun s => if s == TYPING_PARTY_NAME then [matchText] else [],
    fallbacks := [⟨matchCancelCb, fun _ => cancel_conversation⟩] }

/-- `add_filling_conversation()` of `handlers/fillings.py`. -/
def add_filling_conversation : DialogueSpec :=
  { stepIds := [TYPING_FILLING_NAME],
    stepMatchers := fun s => if s == TYPING_FILLING_NAME then [matchText] else [],
    fallbacks := [⟨matchCancelCb, fun sc =>
      cancel_add_filling (lookupNat sc "add_filling_party_id")⟩] }

/-- `rename_filling_conversation()` of `handlers/fillings.py`. -/
def rename_filling_conversation : DialogueSpec :=
  { stepIds := [TYPING_RENAME],
    stepMatchers := fun s => if s == TYPING_RENAME then [matchText] else [],
    fallbacks := [⟨matchCancelCb, fun sc =>
      cancel_rename (lookupNat sc "rename_filling_party_id")⟩] }

/-- `search_member_conversation()` of `handlers/members.py`. -/
def search_member_conversation : DialogueSpec :=
  { stepIds := [TYPING_SEARCH],
    stepMatchers := fun s => if s == TYPING_SEARCH then [matchText] else [],
    fallbacks := [⟨matchCancelCb, fun sc =>
      cancel_search (lookupNat sc "search_member_party_id")⟩] }

/-- `set_info_conversation()` of `handlers/party_info.py`. -/
def set_info_conversation : DialogueSpec :=
  { stepIds := [TYPING_INFO_VALUE, PICKING_DATE, PICKING_TIME],
    stepMatchers := fun s =>
      if s == TYPING_INFO_VALUE then [matchText, matchLocation]
      else if s == PICKING_DATE then [matchCalCb, matchText]
      else if s == PICKING_TIME then [matchPickTimeCb, matchTimePageCb, matchText]
      else [],
    fallbacks := [⟨matchClearInfoCb, fun _ => clear_info_fallback_result⟩,
      ⟨matchEditInfoCb, fun sc => cancel_set_info (lookupNat sc "edit_info_party_id")⟩] }

/-- `invite_contact_conversation()` of `handlers/party.py`. -/
def invite_contact_conversation : DialogueSpec :=
  { stepIds := [WAITING_CONTACT],
    stepMatchers := fun s => if s == WAITING_CONTACT then [matchContact, matchText] else [],
    fallbacks := [⟨matchInviteLinkCb, fun sc =>
      cancel_invite_contact (lookupNat sc "invite_party_id")⟩] }

/-- `broadcast_conversation()` of `handlers/party.py`. -/
def broadcast_conversation : DialogueSpec :=
  { stepIds := [TYPING_BROADCAST],
    stepMatchers := fun s => if s == TYPING_BROADCAST then [matchText] else [],
    fallbacks := [⟨matchCancelCb, fun sc =>
      cancel_broadcast (lookupNat sc "broadcast_party_id")⟩] }

/-! ### Claim theorems -/

/-- C8: deleting a party cascades — afterwards `get_members` and
`get_fillings` return the empty list and the party is no longer retrievable
by id. -/
theorem C8_delete_party_cascade (db : DB) (P : Nat) :
    get_members (delete_party db P) P = [] ∧
    get_fillings (delete_party db P) P = [] ∧
    get_party_by_id (delete_party db P) P = none := by
  refine ⟨?_, ?_, ?_⟩
  · simp [get_members, delete_party, List.filter_filter]
  · simp [get_fillings, delete_party, List.filter_filter]
  · simp [get_party_by_id, delete_party, List.find?_eq_none, List.mem_filter]

/-- C10: removing a member (one transaction) deletes exactly that member's
fillings in that party and that membership row, and nothing else: the
characterisations of the resulting fillings and members lists say that every
other filling (other contributor, or other party) and every other membership
row survives, and parties and ratings are untouched. The leave and kick
call sites delegate to `remove_member` once their guards pass. -/
theorem C10_remove_member_frame (db : DB) (P : Nat) (U A T : Int) :
    (∀ f : Filling, f ∈ (remove_member db P U).fillings ↔
      f ∈ db.fillings ∧ ¬(f.party_id = P ∧ f.added_by_id = U)) ∧
    (∀ m : Member, m ∈ (remove_member db P U).members ↔
      m ∈ db.members ∧ ¬(m.party_id = P ∧ m.telegram_id = U)) ∧
    (remove_member db P U).parties = db.parties ∧
    (remove_member db P U).ratings = db.ratings ∧
    get_user_fillings (remove_member db P U) P U = [] ∧
    get_member (remove_member db P U) P U = none ∧
    (∀ party, get_party_by_id db P = some party → party.creator_id ≠ U →
      confirm_leave_callback db P U = (remove_member db P U, true)) ∧
    (∀ party, get_party_by_id db P = some party → is_user_admin db P A = true →
      T ≠ party.creator_id → confirm_kick_callback db P A T = (remove_member db P T, true)) := by
  refine ⟨?_, ?_, rfl, rfl, ?_, ?_, ?_, ?_⟩
  · intro f
    simp only [remove_member, List.mem_filter, Bool.not_eq_true', Bool.and_eq_false_iff,
      beq_eq_false_iff_ne, ne_eq, not_and]
    tauto
  · intro m
    simp only [remove_member, List.mem_filter, Bool.not_eq_true', Bool.and_eq_false_iff,
      beq_eq_false_iff_ne, ne_eq, not_and]
    tauto
  · simp [get_user_fillings, remove_member, List.filter_filter]
  · simp only [get_member, remove_member, List.find?_eq_none, List.mem_filter,
      Bool.not_eq_true', Bool.and_eq_false_iff, beq_eq_false_iff_ne, ne_eq,
      Bool.and_eq_true, beq_iff_eq]
    tauto
  · intro party hp hne
    rw [confirm_leave_callback, hp]
    simp [hne]
  · intro party hp hadm hne
    rw [confirm_kick_callback, hp, hadm]
    simp [hne]

/-- Witness for C10 at a concrete database: both the leave and the kick call
sites reduce to `remove_member` once their guards pass. -/
theorem C10_remove_member_frame_witness :
    confirm_leave_callback sampleDB 1 200 = (remove_member sampleDB 1 200, true) ∧
    confirm_kick_callback sampleDB 1 100 200 = (remove_member sampleDB 1 200, true) :=
  ⟨(C10_remove_member_frame sampleDB 1 200 100 200).2.2.2.2.2.2.1 sampleParty
      (by decide) (by decide),
   (C10_remove_member_frame sampleDB 1 200 100 200).2.2.2.2.2.2.2 sampleParty
      (by decide) (by decide) (by decide)⟩

/-- C9: rating storage is an upsert — saving preserves "at most one rating
per (party, user)", the stored rating for the saved pair is exactly the new
one (an existing rating is overwritten, not duplicated), and the star-tap
handler persists via `save_rating` for any rating 1..5 by a current member
of an existing party. -/
theorem C9_rating_upsert (db : DB) (pid P : Nat) (uid U : Int) (r : Nat) :
    (ratingCountFor db P U ≤ 1 → ratingCountFor (save_rating db pid uid r) P U ≤ 1) ∧
    get_user_rating (save_rating db pid uid r) pid uid = some ⟨pid, uid, r⟩ ∧
    ratingCountFor (save_rating db pid uid r) pid uid = 1 ∧
    (1 ≤ r → r ≤ 5 → (get_party_by_id db pid).isSome → (get_member db pid uid).isSome →
      handle_rating_callback db pid r uid = (save_rating db pid uid r, true)) := by
  have hfilter0 : (db.ratings.filter (fun x =>
      !(x.party_id == pid && x.telegram_id == uid))).countP
        (fun x => x.party_id == pid && x.telegram_id == uid) = 0 := by
    rw [List.countP_eq_length_filter, List.filter_filter, List.length_eq_zero,
      List.filter_eq_nil_iff]
    intro a _
    simp
  refine ⟨?_, ?_, ?_, ?_⟩
  · intro hinv
    by_cases hP : P = pid ∧ U = uid
    · obtain ⟨hP1, hP2⟩ := hP
      subst hP1; subst hP2
      rw [ratingCountFor, save_rating, List.countP_append, hfilter0]
      simp
    · rw [ratingCountFor, save_rating, List.countP_append]
      have hnew : (List.countP (fun x => x.party_id == P && x.telegram_id == U)
          [(⟨pid, uid, r⟩ : Rating)]) = 0 := by
        simp only [List.countP_cons, List.countP_nil]
        have hfalse : ((⟨pid, uid, r⟩ : Rating).party_id == P &&
            (⟨pid, uid, r⟩ : Rating).telegram_id == U) = false := by
          rcases Decidable.not_and_iff_or_not.mp hP with h | h <;>
            simp [beq_eq_false_iff_ne, Ne.symm h]
        simp [hfalse]
      rw [hnew]
      have hmono : (db.ratings.filter (fun x =>
          !(x.party_id == pid && x.telegram_id == uid))).countP
            (fun x => x.party_id == P && x.telegram_id == U) ≤
          ratingCountFor db P U := by
        rw [List.countP_eq_length_filter, List.filter_filter,
          ← List.countP_eq_length_filter, ratingCountFor]
        apply List.countP_mono_left
        intro x _ h
        exact ((Bool.and_eq_true _ _).mp h).1
      omega
  · rw [get_user_rating, save_rating]
    simp only [List.find?_append]
    have h1 : (db.ratings.filter (fun x =>
        !(x.party_id == pid && x.telegram_id == uid))).find?
          (fun x => x.party_id == pid && x.telegram_id == uid) = none := by
      rw [List.find?_eq_none]
      intro x hx
      simp only [List.mem_filter, Bool.not_eq_true'] at hx
      simp [hx.2]
    rw [h1]
    simp
  · rw [ratingCountFor, save_rating, List.countP_append, hfilter0]
    simp
  · intro h1 h2 hp hm
    obtain ⟨party, hparty⟩ := Option.isSome_iff_exists.mp hp
    obtain ⟨mem, hmem⟩ := Option.isSome_iff_exists.mp hm
    rw [handle_rating_callback]
    have hcond : (1 ≤ r ∧ r ≤ 5 : Bool) = true := by simp [h1, h2]
    rw [hcond]
    simp only [Bool.not_true, Bool.false_eq_true, if_false]
    rw [hparty, hmem]

/-- Witness for C9 at a concrete database: the invariant step and the
handler equation hold for member 200 rating party 1 with 5 stars. -/
theorem C9_rating_upsert_witness :
    ratingCountFor (save_rating sampleDB 1 200 5) 1 200 ≤ 1 ∧
    handle_rating_callback sampleDB 1 5 200 = (save_rating sampleDB 1 200 5, true) :=
  ⟨(C9_rating_upsert sampleDB 1 1 200 200 5).1 (by decide),
   (C9_rating_upsert sampleDB 1 1 200 200 5).2.2.2 (by decide) (by decide)
     (by decide) (by decide)⟩

/-- C6: adding a filling whose trimmed name case-insensitively equals an
existing filling's name in the same party is rejected — the database is
unchanged, the dialogue stays on `TYPING_FILLING_NAME`, and the re-prompt
carries the owner name of the duplicate found. -/
theorem C6_duplicate_filling_rejected (db : DB) (P : Nat) (U : Int) (disp text : String)
    (f : Filling)
    (hmem : (get_member db P U).isSome)
    (hf : f ∈ db.fillings) (hfp : f.party_id = P)
    (hname : pyLower (pyStrip text) = pyLower f.name)
    (hne : (pyStrip text) ≠ "") (hlen : (pyStrip text).length ≤ 100) :
    (receive_filling_name db P U disp text).db = db ∧
    (receive_filling_name db P U disp text).next = .toState TYPING_FILLING_NAME ∧
    ∃ d, find_duplicate_filling db P (pyStrip text) = some d ∧
      (receive_filling_name db P U disp text).dupOwner = some d.added_by_name := by
  obtain ⟨m, hm⟩ := Option.isSome_iff_exists.mp hmem
  have hdup : (find_duplicate_filling db P (pyStrip text)).isSome := by
    rw [find_duplicate_filling, List.find?_isSome]
    exact ⟨f, hf, by simp [hfp, hname]⟩
  obtain ⟨d, hd⟩ := Option.isSome_iff_exists.mp hdup
  have hbe : ((pyStrip text) == "") = false := by simp [hne]
  have hlt : ¬ ((pyStrip text).length > 100) := by omega
  refine ⟨?_, ?_, d, hd, ?_⟩ <;>
    simp [receive_filling_name, hm, hbe, hlt, hd]

/-- C7: renaming a filling to a name that case-insensitively matches only
itself succeeds — the duplicate check excludes the filling being renamed,
the rename is persisted, and the dialogue completes. -/
theorem C7_rename_self_collision_allowed (db : DB) (F : Filling) (P : Nat) (U : Int)
    (text : String)
    (hF : F ∈ db.fillings) (hFp : F.party_id = P)
    (hmem : (get_member db P U).isSome)
    (hne : (pyStrip text) ≠ "") (hlen : (pyStrip text).length ≤ 100)
    (hself : pyLower (pyStrip text) = pyLower F.name)
    (honly : ∀ g ∈ db.fillings, g.party_id = P →
      pyLower g.name = pyLower (pyStrip text) → g.id = F.id) :
    (receive_rename db F.id P U text).db = rename_filling db F.id (pyStrip text) ∧
    (receive_rename db F.id P U text).next = .done := by
  obtain ⟨m, hm⟩ := Option.isSome_iff_exists.mp hmem
  have hbe : ((pyStrip text) == "") = false := by simp [hne]
  have hlt : ¬ ((pyStrip text).length > 100) := by omega
  cases hd : find_duplicate_filling db P (pyStrip text) with
  | none =>
    constructor <;> simp [receive_rename, hm, hbe, hlt, hd]
  | some dup =>
    have hdmem : dup ∈ db.fillings :=
      List.mem_of_find?_eq_some hd
    have hdpred := List.find?_some hd
    simp only [Bool.and_eq_true, beq_iff_eq] at hdpred
    have hid : dup.id = F.id := honly dup hdmem hdpred.1 hdpred.2
    constructor <;> simp [receive_rename, hm, hbe, hlt, hd, hid]

/-- Witness for C6: member 100 tries to add "salad" to a party that already
has "Salad" (different casing) — rejected, database unchanged, and the
re-prompt names the first contributor. -/
theorem C6_duplicate_filling_rejected_witness :
    (receive_filling_name saladDB 1 100 "@alice" "salad").db = saladDB ∧
    (receive_filling_name saladDB 1 100 "@alice" "salad").next =
      .toState TYPING_FILLING_NAME ∧
    ∃ d, find_duplicate_filling saladDB 1 (pyStrip "salad") = some d ∧
      (receive_filling_name saladDB 1 100 "@alice" "salad").dupOwner =
        some d.added_by_name :=
  C6_duplicate_filling_rejected saladDB 1 100 "@alice" "salad"
    ⟨7, 1, "Salad", 200, "@bob", 0⟩ (by decide) (by decide) (by decide)
    (by decide) (by decide) (by decide)

/-- Witness for C7: filling 7 "Salad" is renamed by its owner 200 to
"salad" — the self-collision is excluded and the rename completes. -/
theorem C7_rename_self_collision_allowed_witness :
    (receive_rename saladDB 7 1 200 "salad").db =
      rename_filling saladDB 7 (pyStrip "salad") ∧
    (receive_rename saladDB 7 1 200 "salad").next = .done :=
  C7_rename_self_collision_allowed saladDB ⟨7, 1, "Salad", 200, "@bob", 0⟩ 1 200 "salad"
    (by decide) (by decide) (by decide) (by decide) (by decide) (by decide) (by decide)

/-- C3: every text-entry step rejects input that is empty after trimming,
and input above the step's fixed maximum (100 for party and filling names,
500 for info fields, 1000 for broadcast text) — the handler re-prompts on
the same step, the database is unchanged, and (the handlers writing no
scratch keys on these paths) the scratch is unchanged. The date, time and
contact wait steps likewise re-prompt in place. -/
theorem C3_text_step_validation (db : DB) (st : SysState) (P : Nat) (U : Int)
    (disp code field text : String) (d : PDate) :
    (pyStrip text = "" ∨ (pyStrip text).length > 100 →
      receive_party_name db U disp code text = (db, .toState TYPING_PARTY_NAME)) ∧
    ((get_member db P U).isSome → pyStrip text = "" ∨ (pyStrip text).length > 100 →
      receive_filling_name db P U disp text = ⟨db, .toState TYPING_FILLING_NAME, none⟩) ∧
    (∀ fid, (get_member db P U).isSome → pyStrip text = "" ∨ (pyStrip text).length > 100 →
      receive_rename db fid P U text = ⟨db, .toState TYPING_RENAME, none⟩) ∧
    (pyStrip text = "" →
      receive_search_query db P text = ⟨db, .toState TYPING_SEARCH, []⟩) ∧
    (is_user_admin st.db P U = true →
      pyStrip text = "" ∨ (pyStrip text).length > 500 →
      receive_info_value st P field U text = ⟨st, .toState TYPING_INFO_VALUE⟩) ∧
    (is_user_admin db P U = true → (get_party_by_id db P).isSome →
      pyStrip text = "" ∨ (pyStrip text).length > 1000 →
      receive_broadcast_text db P U text = ⟨db, .toState TYPING_BROADCAST, []⟩) ∧
    (pyStrip text = "" →
      receive_time_text st P (some d) U text = ⟨st, .toState PICKING_TIME⟩) ∧
    receive_date_text st = ⟨st, .toState PICKING_DATE⟩ ∧
    contact_wait_text db = (db, .toState WAITING_CONTACT) := by
  have hne_of_len : ∀ (s : String) (n : Nat), s.length > n → (s == "") = false := by
    intro s n h
    rw [beq_eq_false_iff_ne]
    intro he
    subst he
    have h0 : ("" : String).length = 0 := rfl
    omega
  refine ⟨?_, ?_, ?_, ?_, ?_, ?_, ?_, rfl, rfl⟩
  · rintro (he | hl)
    · simp [receive_party_name, he]
    · simp [receive_party_name, hne_of_len _ _ hl, hl]
  · intro hmem h
    obtain ⟨m, hm⟩ := Option.isSome_iff_exists.mp hmem
    rcases h with he | hl
    · simp [receive_filling_name, hm, he]
    · simp [receive_filling_name, hm, hne_of_len _ _ hl, hl]
  · intro fid hmem h
    obtain ⟨m, hm⟩ := Option.isSome_iff_exists.mp hmem
    rcases h with he | hl
    · simp [receive_rename, hm, he]
    · simp [receive_rename, hm, hne_of_len _ _ hl, hl]
  · intro he
    simp [receive_search_query, he]
  · intro hadm h
    rcases h with he | hl
    · simp [receive_info_value, hadm, he]
    · simp [receive_info_value, hadm, hne_of_len _ _ hl, hl]
  · intro hadm hp h
    obtain ⟨party, hparty⟩ := Option.isSome_iff_exists.mp hp
    rcases h with he | hl
    · simp [receive_broadcast_text, hadm, hparty, he]
    · simp [receive_broadcast_text, hadm, hparty, hne_of_len _ _ hl, hl]
  · intro he
    simp [receive_time_text, he, timeMatch]

set_option maxRecDepth 16384 in
/-- Witness for C3 at concrete inputs: a whitespace-only party name, an
over-long filling name, a whitespace-only rename and search query, an empty
info value, an over-long broadcast, and a whitespace-only time text are all
rejected in place. -/
theorem C3_text_step_validation_witness :
    receive_party_name sampleDB 100 "@alice" "abc123XY" "   " =
      (sampleDB, .toState TYPING_PARTY_NAME) ∧
    receive_filling_name sampleDB 1 100 "@alice" longText101 =
      ⟨sampleDB, .toState TYPING_FILLING_NAME, none⟩ ∧
    receive_rename sampleDB 7 1 200 "   " = ⟨sampleDB, .toState TYPING_RENAME, none⟩ ∧
    receive_search_query sampleDB 1 "   " = ⟨sampleDB, .toState TYPING_SEARCH, []⟩ ∧
    receive_info_value sampleState 1 "info_description" 100 " " =
      ⟨sampleState, .toState TYPING_INFO_VALUE⟩ ∧
    receive_broadcast_text sampleDB 1 100 longText1001 =
      ⟨sampleDB, .toState TYPING_BROADCAST, []⟩ ∧
    receive_time_text sampleState 1 (some ⟨2026, 1, 1⟩) 100 "  " =
      ⟨sampleState, .toState PICKING_TIME⟩ :=
  ⟨(C3_text_step_validation sampleDB sampleState 1 100 "@alice" "abc123XY"
      "info_description" "   " ⟨2026, 1, 1⟩).1 (Or.inl (by decide)),
   (C3_text_step_validation sampleDB sampleState 1 100 "@alice" "abc123XY"
      "info_description" longText101 ⟨2026, 1, 1⟩).2.1 (by decide) (Or.inr (by decide)),
   (C3_text_step_validation sampleDB sampleState 1 200 "@bob" "abc123XY"
      "info_description" "   " ⟨2026, 1, 1⟩).2.2.1 7 (by decide) (Or.inl (by decide)),
   (C3_text_step_validation sampleDB sampleState 1 100 "@alice" "abc123XY"
      "info_description" "   " ⟨2026, 1, 1⟩).2.2.2.1 (by decide),
   (C3_text_step_validation sampleDB sampleState 1 100 "@alice" "abc123XY"
      "info_description" " " ⟨2026, 1, 1⟩).2.2.2.2.1 (by decide) (Or.inl (by decide)),
   (C3_text_step_validation sampleDB sampleState 1 100 "@alice" "abc123XY"
      "info_description" longText1001 ⟨2026, 1, 1⟩).2.2.2.2.2.1 (by decide) (by decide)
        (Or.inr (by decide)),
   (C3_text_step_validation sampleDB sampleState 1 100 "@alice" "abc123XY"
      "info_description" "  " ⟨2026, 1, 1⟩).2.2.2.2.2.2.1 (by decide)⟩

/-- `setInfoField` never changes the row id. -/
theorem setInfoField_id (p : Party) (field : String) (v : Option String) :
    (setInfoField p field v).id = p.id := by
  rw [setInfoField]
  split_ifs <;> rfl

/-- `find?` commutes with a map that does not change the predicate value. -/
theorem find?_map_pred {α : Type} (l : List α) (g : α → α) (q : α → Bool)
    (hg : ∀ a, q (g a) = q a) :
    (l.map g).find? q = (l.find? q).map g := by
  induction l with
  | nil => rfl
  | cons a t ih =>
    by_cases ha : q a = true
    · rw [List.map_cons, List.find?_cons_of_pos _ ((hg a).trans ha),
        List.find?_cons_of_pos _ ha, Option.map_some']
    · rw [List.map_cons, List.find?_cons_of_neg _ (by rw [hg a]; exact ha),
        List.find?_cons_of_neg _ ha, ih]

/-- Looking up the updated party after `update_party_info` yields the same
row with the one field set. -/
theorem get_party_by_id_after_update (db db' : DB) (P : Nat) (field : String)
    (v : Option String) (party : Party)
    (hu : update_party_info db P field v = some db')
    (hp : get_party_by_id db P = some party) :
    get_party_by_id db' P = some (setInfoField party field v) := by
  rw [get_party_by_id] at hp
  have hpid : (party.id == P) = true := by
    have h := List.find?_some hp
    exact h
  rw [update_party_info] at hu
  split at hu
  · injection hu with hu
    subst hu
    change (db.parties.map (fun p =>
      if p.id == P then setInfoField p field v else p)).find? (fun p => p.id == P) =
        some (setInfoField party field v)
    have hg : ∀ a : Party,
        (((if a.id == P then setInfoField a field v else a).id == P)) = (a.id == P) := by
      intro a
      by_cases h : (a.id == P) = true
      · simp [h, setInfoField_id]
      · simp [h]
    rw [find?_map_pred _ _ _ hg, hp, Option.map_some', if_pos hpid]
  · exact absurd hu (by simp)

/-- The notifier only touches the job queue, never the database. -/
theorem schedule_info_notification_db (st : SysState) (p : Nat) (a : Int) :
    (schedule_info_notification st p a).db = st.db := rfl

/-- C4: a location shared in the TypingValue state — editing `map_link`
persists the URL with the exact coordinates into `map_link` and completes;
editing `address` persists the same URL into `map_link` (address itself
unchanged) and stays in TypingValue awaiting the address text; any other
field persists nothing and stays in TypingValue. -/
theorem C4_location_by_field (st : SysState) (P : Nat) (U : Int) (lat lon field : String)
    (party : Party)
    (hadmin : is_user_admin st.db P U = true)
    (hp : get_party_by_id st.db P = some party) :
    ((receive_location st P "info_map_link" U lat lon).next = .done ∧
      get_party_info (receive_location st P "info_map_link" U lat lon).st.db P =
        some ⟨party.info_datetime, party.info_address,
          some (mapsUrl lat lon), party.info_description⟩) ∧
    ((receive_location st P "info_address" U lat lon).next = .toState TYPING_INFO_VALUE ∧
      get_party_info (receive_location st P "info_address" U lat lon).st.db P =
        some ⟨party.info_datetime, party.info_address,
          some (mapsUrl lat lon), party.info_description⟩) ∧
    (field ≠ "info_address" → field ≠ "info_map_link" →
      receive_location st P field U lat lon = ⟨st, .toState TYPING_INFO_VALUE⟩) := by
  have hset : ∀ v : Option String, setInfoField party "info_map_link" v =
      { party with info_map_link := v } := fun v => rfl
  refine ⟨?_, ?_, ?_⟩
  · cases hu : update_party_info st.db P "info_map_link" (some (mapsUrl lat lon)) with
    | none =>
      rw [update_party_info] at hu
      simp [INFO_FIELDS] at hu
    | some db1 =>
      have hb1 := get_party_by_id_after_update _ _ _ _ _ _ hu hp
      rw [hset] at hb1
      constructor <;>
        simp [receive_location, hadmin, hu, hb1, get_party_info,
          schedule_info_notification_db]
  · cases hu : update_party_info st.db P "info_map_link" (some (mapsUrl lat lon)) with
    | none =>
      rw [update_party_info] at hu
      simp [INFO_FIELDS] at hu
    | some db1 =>
      have hb1 := get_party_by_id_after_update _ _ _ _ _ _ hu hp
      rw [hset] at hb1
      constructor <;>
        simp [receive_location, hadmin, hu, hb1, get_party_info,
          schedule_info_notification_db]
  · intro ha1 ha2
    simp [receive_location, hadmin, ha1, ha2]

/-- Witness for C4: sharing a pin at concrete coordinates while editing the
map link completes and stores the URL; while editing the address it stores
the URL but stays in TypingValue; for the description field nothing happens. -/
theorem C4_location_by_field_witness :
    ((receive_location sampleState 1 "info_map_link" 100 "55.75" "37.62").next = .done ∧
      get_party_info
          (receive_location sampleState 1 "info_map_link" 100 "55.75" "37.62").st.db 1 =
        some ⟨none, none, some (mapsUrl "55.75" "37.62"), none⟩) ∧
    ((receive_location sampleState 1 "info_address" 100 "55.75" "37.62").next =
        .toState TYPING_INFO_VALUE ∧
      get_party_info
          (receive_location sampleState 1 "info_address" 100 "55.75" "37.62").st.db 1 =
        some ⟨none, none, some (mapsUrl "55.75" "37.62"), none⟩) ∧
    receive_location sampleState 1 "info_description" 100 "55.75" "37.62" =
      ⟨sampleState, .toState TYPING_INFO_VALUE⟩ :=
  ⟨(C4_location_by_field sampleState 1 100 "55.75" "37.62" "info_description" sampleParty
      (by decide) (by decide)).1,
   (C4_location_by_field sampleState 1 100 "55.75" "37.62" "info_description" sampleParty
      (by decide) (by decide)).2.1,
   (C4_location_by_field sampleState 1 100 "55.75" "37.62" "info_description" sampleParty
      (by decide) (by decide)).2.2 (by decide) (by decide)⟩

/-- A separator character is never a digit. -/
theorem isTimeSep_not_digit (c : Char) (h : isTimeSep c = true) : c.isDigit = false := by
  rw [isTimeSep] at h
  simp only [Bool.or_eq_true, beq_iff_eq] at h
  rcases h with ((((((h | h) | h) | h) | h) | h) | h) | h <;> subst h <;> rfl

/-- The embedded regex matcher accepts exactly the inputs of the
declarative shape, with the captured hour and minute values. -/
theorem timeMatch_iff (cs : List Char) (h m : Nat) :
    timeMatch cs = some (h, m) ↔ timeRegexSpec cs h m := by
  constructor
  · intro hmt
    match cs with
    | [] => exact absurd hmt (by simp [timeMatch])
    | [a] => exact absurd hmt (by simp [timeMatch])
    | [a, b] => exact absurd hmt (by simp [timeMatch])
    | [a, b, c] =>
      simp only [timeMatch] at hmt
      split_ifs at hmt with hd
      · obtain ⟨⟨ha, hb⟩, hc⟩ := by simpa only [Bool.and_eq_true] using hd
        injection hmt with hmt
        injection hmt with h1 h2
        exact ⟨[a], [], [b, c], rfl, by simp, by simp,
          by simp [ha], Or.inl rfl, rfl, by simp [hb, hc],
          by rw [← h1]; rfl, by rw [← h2]; rfl⟩
    | [a, b, c, d] =>
      simp only [timeMatch] at hmt
      split_ifs at hmt with hd1 hd2
      · obtain ⟨⟨⟨ha, hb⟩, hc⟩, hdd⟩ := by simpa only [Bool.and_eq_true] using hd1
        injection hmt with hmt
        injection hmt with h1 h2
        exact ⟨[a, b], [], [c, d], rfl, by simp, by simp,
          by simp [ha, hb], Or.inl rfl, rfl, by simp [hc, hdd],
          by rw [← h1]; rfl, by rw [← h2]; rfl⟩
      · obtain ⟨⟨⟨ha, hb⟩, hc⟩, hdd⟩ := by simpa only [Bool.and_eq_true] using hd2
        injection hmt with hmt
        injection hmt with h1 h2
        exact ⟨[a], [b], [c, d], rfl, by simp, by simp,
          by simp [ha], Or.inr ⟨b, rfl, hb⟩, rfl, by simp [hc, hdd],
          by rw [← h1]; rfl, by rw [← h2]; rfl⟩
    | [a, b, c, d, e] =>
      simp only [timeMatch] at hmt
      split_ifs at hmt with hd
      · obtain ⟨⟨⟨⟨ha, hb⟩, hc⟩, hdd⟩, he⟩ := by simpa only [Bool.and_eq_true] using hd
        injection hmt with hmt
        injection hmt with h1 h2
        exact ⟨[a, b], [c], [d, e], rfl, by simp, by simp,
          by simp [ha, hb], Or.inr ⟨c, rfl, hc⟩, rfl, by simp [hdd, he],
          by rw [← h1]; rfl, by rw [← h2]; rfl⟩
    | a :: b :: c :: d :: e :: f :: rest =>
      simp only [timeMatch] at hmt
      exact absurd hmt (by simp)
  · intro hspec
    obtain ⟨ds, sep, ms, hcs, hds1, hds2, hdig, hsep, hms, hmsdig, hh, hm⟩ := hspec
    obtain ⟨y, z, rfl⟩ := List.length_eq_two.mp hms
    have hy : y.isDigit = true := hmsdig y (by simp)
    have hz : z.isDigit = true := hmsdig z (by simp)
    rcases hsep with rfl | ⟨c0, rfl, hc0⟩
    · rcases ds with _ | ⟨x1, ds'⟩
      · simp at hds1
      · rcases ds' with _ | ⟨x2, ds''⟩
        · have hx1 : x1.isDigit = true := hdig x1 (by simp)
          subst hcs hh hm
          simp only [List.cons_append, List.nil_append, timeMatch]
          rw [if_pos (by simp [hx1, hy, hz])]
          rfl
        · rcases ds'' with _ | ⟨x3, ds'''⟩
          · have hx1 : x1.isDigit = true := hdig x1 (by simp)
            have hx2 : x2.isDigit = true := hdig x2 (by simp)
            subst hcs hh hm
            simp only [List.cons_append, List.nil_append, timeMatch]
            rw [if_pos (by simp [hx1, hx2, hy, hz])]
            rfl
          · simp at hds2
    · rcases ds with _ | ⟨x1, ds'⟩
      · simp at hds1
      · rcases ds' with _ | ⟨x2, ds''⟩
        · have hx1 : x1.isDigit = true := hdig x1 (by simp)
          subst hcs hh hm
          simp only [List.cons_append, List.nil_append, timeMatch]
          rw [if_neg (by simp [isTimeSep_not_digit c0 hc0]),
            if_pos (by simp [hx1, hc0, hy, hz])]
          rfl
        · rcases ds'' with _ | ⟨x3, ds'''⟩
          · have hx1 : x1.isDigit = true := hdig x1 (by simp)
            have hx2 : x2.isDigit = true := hdig x2 (by simp)
            subst hcs hh hm
            simp only [List.cons_append, List.nil_append, timeMatch]
            rw [if_pos (by simp [hx1, hx2, hc0, hy, hz])]
            rfl
          · simp at hds2

/-- `_save_datetime` persists the formatted datetime into `info_datetime`
(other info fields untouched) and ends the conversation. -/
theorem save_datetime_spec (st : SysState) (P : Nat) (d : PDate) (hh mm : Nat) (U : Int)
    (party : Party) (hp : get_party_by_id st.db P = some party) :
    (save_datetime st P d hh mm U).next = .done ∧
    get_party_info (save_datetime st P d hh mm U).st.db P =
      some ⟨some (fmtDatetime d hh mm), party.info_address, party.info_map_link,
        party.info_description⟩ := by
  cases hu : update_party_info st.db P "info_datetime" (some (fmtDatetime d hh mm)) with
  | none =>
    rw [update_party_info] at hu
    simp [INFO_FIELDS] at hu
  | some db1 =>
    have hb1 := get_party_by_id_after_update _ _ _ _ _ _ hu hp
    have hset : setInfoField party "info_datetime" (some (fmtDatetime d hh mm)) =
        { party with info_datetime := some (fmtDatetime d hh mm) } := rfl
    rw [hset] at hb1
    constructor <;>
      simp [save_datetime, hu, hb1, get_party_info, schedule_info_notification_db]

/-- C5: the free-text time parser accepts exactly the strings of the regex
shape `^(\d{1,2})[:.\s]?(\d{2})$` with hour 0..23 and minute 0..59;
"18:30", "18.30" and "1830" parse to 18:30, "25:00" matches the shape but
fails the hour range, "8:5" does not match; rejected input re-prompts in
`PICKING_TIME` with nothing persisted, and accepted input persists the
datetime and completes the dialogue. -/
theorem C5_time_text_parsing :
    (∀ (cs : List Char) (h m : Nat), timeMatch cs = some (h, m) ↔ timeRegexSpec cs h m) ∧
    timeMatch "18:30".data = some (18, 30) ∧
    timeMatch "18.30".data = some (18, 30) ∧
    timeMatch "1830".data = some (18, 30) ∧
    timeMatch "25:00".data = some (25, 0) ∧
    timeMatch "8:5".data = none ∧
    (∀ (st : SysState) (P : Nat) (d : PDate) (U : Int) (text : String),
      timeMatch (pyStrip text).data = none →
      receive_time_text st P (some d) U text = ⟨st, .toState PICKING_TIME⟩) ∧
    (∀ (st : SysState) (P : Nat) (d : PDate) (U : Int) (text : String) (h' m' : Nat),
      timeMatch (pyStrip text).data = some (h', m') → ¬(h' ≤ 23 ∧ m' ≤ 59) →
      receive_time_text st P (some d) U text = ⟨st, .toState PICKING_TIME⟩) ∧
    (∀ (st : SysState) (P : Nat) (d : PDate) (U : Int) (text : String) (h' m' : Nat)
      (party : Party),
      timeMatch (pyStrip text).data = some (h', m') → h' ≤ 23 → m' ≤ 59 →
      get_party_by_id st.db P = some party →
      (receive_time_text st P (some d) U text).next = .done ∧
      get_party_info (receive_time_text st P (some d) U text).st.db P =
        some ⟨some (fmtDatetime d h' m'), party.info_address, party.info_map_link,
          party.info_description⟩) := by
  refine ⟨timeMatch_iff, by decide, by decide, by decide, by decide, by decide, ?_, ?_, ?_⟩
  · intro st P d U text hnone
    simp [receive_time_text, hnone]
  · intro st P d U text h' m' hsome hno
    simp [receive_time_text, hsome, hno]
  · intro st P d U text h' m' party hsome h23 h59 hp
    have hr : receive_time_text st P (some d) U text = save_datetime st P d h' m' U := by
      simp [receive_time_text, hsome, h23, h59]
    rw [hr]
    exact save_datetime_spec st P d h' m' U party hp

/-- Witness for C5 at concrete inputs: "8:5" and "25:00" re-prompt in
`PICKING_TIME`, and "18:30" persists "Mar 14, 2026 at 18:30" and completes. -/
theorem C5_time_text_parsing_witness :
    receive_time_text sampleState 1 (some ⟨2026, 3, 14⟩) 100 "8:5" =
      ⟨sampleState, .toState PICKING_TIME⟩ ∧
    receive_time_text sampleState 1 (some ⟨2026, 3, 14⟩) 100 "25:00" =
      ⟨sampleState, .toState PICKING_TIME⟩ ∧
    (receive_time_text sampleState 1 (some ⟨2026, 3, 14⟩) 100 "18:30").next = .done ∧
    get_party_info
        (receive_time_text sampleState 1 (some ⟨2026, 3, 14⟩) 100 "18:30").st.db 1 =
      some ⟨some (fmtDatetime ⟨2026, 3, 14⟩ 18 30), none, none, none⟩ :=
  ⟨C5_time_text_parsing.2.2.2.2.2.2.1 sampleState 1 ⟨2026, 3, 14⟩ 100 "8:5" (by decide),
   C5_time_text_parsing.2.2.2.2.2.2.2.1 sampleState 1 ⟨2026, 3, 14⟩ 100 "25:00" 25 0
     (by decide) (by decide),
   (C5_time_text_parsing.2.2.2.2.2.2.2.2 sampleState 1 ⟨2026, 3, 14⟩ 100 "18:30" 18 30
     sampleParty (by decide) (by decide) (by decide) (by decide)).1,
   (C5_time_text_parsing.2.2.2.2.2.2.2.2 sampleState 1 ⟨2026, 3, 14⟩ 100 "18:30" 18 30
     sampleParty (by decide) (by decide) (by decide) (by decide)).2⟩

/-- Two filters of the same list commute. -/
theorem filter_swap {α : Type} (l : List α) (p q : α → Bool) :
    (l.filter p).filter q = (l.filter q).filter p := by
  rw [List.filter_filter, List.filter_filter]
  congr 1
  funext a
  rw [Bool.and_comm]

/-- After `scheduleJob`, the party's key holds exactly the fresh job. -/
theorem scheduleJob_filter (jobs : List Job) (now : Nat) (p : Nat) (a : Int) :
    (scheduleJob jobs now p a).filter (isInfoJob p) =
      [⟨infoJobName p, now + NOTIFICATION_DELAY, p, a⟩] := by
  rw [scheduleJob, List.filter_append, List.filter_filter]
  have h1 : (jobs.filter (fun j => isInfoJob p j && !(j.name == infoJobName p))) = [] := by
    rw [List.filter_eq_nil_iff]
    intro j _
    simp [isInfoJob]
  rw [h1]
  simp [isInfoJob, infoJobName]

/-- A prefix of a chain is a chain. -/
theorem chainFrom_take (l : List (Nat × Int)) :
    ∀ (t k : Nat), chainFrom t l = true → chainFrom t (l.take k) = true := by
  induction l with
  | nil =>
    intro t k _
    simp [List.take, chainFrom]
  | cons x rest ih =>
    intro t k hc
    cases k with
    | zero => rfl
    | succ k' =>
      rcases x with ⟨t', a'⟩
      rw [chainFrom, Bool.and_eq_true] at hc
      rw [List.take, chainFrom, Bool.and_eq_true]
      exact ⟨hc.1, ih t' k' hc.2⟩

/-- Invariant of the debounce run: if the party's key currently holds
exactly one pending job armed at time `t`, then after any chain of further
arms the key still holds exactly one pending job — the one armed last —
and no job of this key has fired meanwhile. -/
theorem runArms_inv (p : Nat) (rest : List (Nat × Int)) :
    ∀ (jobs fired : List Job) (t : Nat) (a : Int),
    jobs.filter (isInfoJob p) = [⟨infoJobName p, t + NOTIFICATION_DELAY, p, a⟩] →
    chainFrom t rest = true →
    (runArms p jobs fired rest).1.filter (isInfoJob p) =
      [⟨infoJobName p, (lastArm t a rest).1 + NOTIFICATION_DELAY, p,
        (lastArm t a rest).2⟩] ∧
    (runArms p jobs fired rest).2.filter (isInfoJob p) = fired.filter (isInfoJob p) := by
  induction rest with
  | nil =>
    intro jobs fired t a hj _
    exact ⟨hj, rfl⟩
  | cons x rest ih =>
    rcases x with ⟨t', a'⟩
    intro jobs fired t a hj hc
    rw [chainFrom, Bool.and_eq_true, Bool.and_eq_true] at hc
    obtain ⟨⟨h1, h2⟩, hc'⟩ := hc
    rw [decide_eq_true_eq] at h1
    rw [decide_eq_true_eq] at h2
    have hdue : (jobs.filter (fun j => decide (j.fireAt ≤ t'))).filter (isInfoJob p) = [] := by
      rw [filter_swap, hj]
      have : ¬ (t + NOTIFICATION_DELAY ≤ t') := by omega
      simp [this]
    have hlive : (jobs.filter (fun j => !(decide (j.fireAt ≤ t')))).filter (isInfoJob p) =
        [⟨infoJobName p, t + NOTIFICATION_DELAY, p, a⟩] := by
      rw [filter_swap, hj]
      have : ¬ (t + NOTIFICATION_DELAY ≤ t') := by omega
      simp [this]
    have hstep := ih (scheduleJob (jobs.filter (fun j => !(decide (j.fireAt ≤ t')))) t' p a')
      (fired ++ jobs.filter (fun j => decide (j.fireAt ≤ t'))) t' a'
      (scheduleJob_filter _ t' p a') hc'
    refine ⟨hstep.1, ?_⟩
    rw [runArms, hstep.2, List.filter_append, hdue, List.append_nil]

/-- C1: repeated arming of a party's info-change timer coalesces. For any
sequence of arm calls whose consecutive gaps are below the delay, starting
with no pending timer for the party, exactly one job of that party's key
ever fires (the pending queue and fired list together hold exactly one),
it carries the payload of the last arm call and fires `NOTIFICATION_DELAY`
(= 30) after it; after every prefix of the arm sequence at most one timer
for the party is pending; and the fire callback sends nothing when the
party has been deleted. -/
theorem C1_info_notification_debounce (jobs0 : List Job) (db : DB) (p t0 : Nat)
    (a0 : Int) (rest : List (Nat × Int))
    (h0 : jobs0.filter (isInfoJob p) = [])
    (hc : chainFrom t0 rest = true) :
    NOTIFICATION_DELAY = 30 ∧
    ((runArms p jobs0 [] ((t0, a0) :: rest)).2 ++
        (runArms p jobs0 [] ((t0, a0) :: rest)).1).filter (isInfoJob p) =
      [⟨infoJobName p, (lastArm t0 a0 rest).1 + NOTIFICATION_DELAY, p,
        (lastArm t0 a0 rest).2⟩] ∧
    (∀ k, ((runArms p jobs0 [] (((t0, a0) :: rest).take k)).1.filter
      (isInfoJob p)).length ≤ 1) ∧
    (get_party_by_id db p = none → send_info_notification db p a0 = []) := by
  have hdue0 : (jobs0.filter (fun j => decide (j.fireAt ≤ t0))).filter (isInfoJob p) = [] := by
    rw [filter_swap, h0]
    rfl
  refine ⟨rfl, ?_, ?_, ?_⟩
  · have hinv := runArms_inv p rest
      (scheduleJob (jobs0.filter (fun j => !(decide (j.fireAt ≤ t0)))) t0 p a0)
      ([] ++ jobs0.filter (fun j => decide (j.fireAt ≤ t0))) t0 a0
      (scheduleJob_filter _ t0 p a0) hc
    rw [runArms, List.filter_append, hinv.1, hinv.2, List.nil_append, hdue0,
      List.nil_append]
  · intro k
    cases k with
    | zero => simp [runArms, h0]
    | succ k' =>
      have hck := chainFrom_take rest t0 k' hc
      have hinv := runArms_inv p (rest.take k')
        (scheduleJob (jobs0.filter (fun j => !(decide (j.fireAt ≤ t0)))) t0 p a0)
        ([] ++ jobs0.filter (fun j => decide (j.fireAt ≤ t0))) t0 a0
        (scheduleJob_filter _ t0 p a0) hck
      rw [List.take_succ_cons, runArms, hinv.1]
      simp
  · intro h
    simp [send_info_notification, h]

/-- Witness for C1: three arm calls for party 5 at times 0, 10, 25 (each
gap below 30) leave exactly one fire, at time 55 with admin 200, and the
callback for the nonexistent party 5 of the sample database sends nothing. -/
theorem C1_info_notification_debounce_witness :
    NOTIFICATION_DELAY = 30 ∧
    ((runArms 5 [] [] [(0, 100), (10, 100), (25, 200)]).2 ++
        (runArms 5 [] [] [(0, 100), (10, 100), (25, 200)]).1).filter (isInfoJob 5) =
      [⟨infoJobName 5, 25 + NOTIFICATION_DELAY, 5, 200⟩] ∧
    (∀ k, ((runArms 5 [] [] (([(0, 100), (10, 100), (25, 200)] :
      List (Nat × Int)).take k)).1.filter (isInfoJob 5)).length ≤ 1) ∧
    send_info_notification sampleDB 5 100 = [] :=
  ⟨(C1_info_notification_debounce [] sampleDB 5 0 100 [(10, 100), (25, 200)]
      (by decide) (by decide)).1,
   (C1_info_notification_debounce [] sampleDB 5 0 100 [(10, 100), (25, 200)]
      (by decide) (by decide)).2.1,
   (C1_info_notification_debounce [] sampleDB 5 0 100 [(10, 100), (25, 200)]
      (by decide) (by decide)).2.2.1,
   (C1_info_notification_debounce [] sampleDB 5 0 100 [(10, 100), (25, 200)]
      (by decide) (by decide)).2.2.2 (by decide)⟩

/-- C2: from every step of every dialogue, injecting that dialogue's cancel
event terminates the dialogue — the engine routes it to the cancel
fallback, whose handler returns the terminal marker, so the session is
cleared (no step active, scratch emptied). The second conjunct of each
part notes that no step handler pattern captures the cancel event, so the
routing is the same under either dispatch order (fallback-first per the
spec, state-first in the bot framework). -/
theorem C2_cancel_from_every_step (pid : Nat) (scratch : List (String × Val)) :
    (∀ s ∈ create_party_conversation.stepIds,
      handleActive create_party_conversation s scratch (.callback .cancelBtn) =
        some ⟨none, []⟩ ∧
      (create_party_conversation.stepMatchers s).all
        (fun m => !(m (.callback .cancelBtn))) = true) ∧
    (∀ s ∈ add_filling_conversation.stepIds,
      handleActive add_filling_conversation s scratch (.callback .cancelBtn) =
        some ⟨none, []⟩ ∧
      (add_filling_conversation.stepMatchers s).all
        (fun m => !(m (.callback .cancelBtn))) = true) ∧
    (∀ s ∈ rename_filling_conversation.stepIds,
      handleActive rename_filling_conversation s scratch (.callback .cancelBtn) =
        some ⟨none, []⟩ ∧
      (rename_filling_conversation.stepMatchers s).all
        (fun m => !(m (.callback .cancelBtn))) = true) ∧
    (∀ s ∈ search_member_conversation.stepIds,
      handleActive search_member_conversation s scratch (.callback .cancelBtn) =
        some ⟨none, []⟩ ∧
      (search_member_conversation.stepMatchers s).all
        (fun m => !(m (.callback .cancelBtn))) = true) ∧
    (∀ s ∈ set_info_conversation.stepIds,
      handleActive set_info_conversation s scratch (.callback (.editPartyInfo pid)) =
        some ⟨none, []⟩ ∧
      (set_info_conversation.stepMatchers s).all
        (fun m => !(m (.callback (.editPartyInfo pid)))) = true) ∧
    (∀ s ∈ invite_contact_conversation.stepIds,
      handleActive invite_contact_conversation s scratch (.callback (.inviteLink pid)) =
        some ⟨none, []⟩ ∧
      (invite_contact_conversation.stepMatchers s).all
        (fun m => !(m (.callback (.inviteLink pid)))) = true) ∧
    (∀ s ∈ broadcast_conversation.stepIds,
      handleActive broadcast_conversation s scratch (.callback .cancelBtn) =
        some ⟨none, []⟩ ∧
      (broadcast_conversation.stepMatchers s).all
        (fun m => !(m (.callback .cancelBtn))) = true) := by
  refine ⟨?_, ?_, ?_, ?_, ?_, ?_, ?_⟩ <;>
    · intro s hs
      simp only [create_party_conversation, add_filling_conversation,
        rename_filling_conversation, search_member_conversation,
        set_info_conversation, invite_contact_conversation,
        broadcast_conversation, List.mem_cons, List.mem_singleton,
        List.not_mem_nil, or_false] at hs
      rcases hs with rfl | rfl | rfl | hs <;> first
        | exact ⟨rfl, rfl⟩
        | simp at hs

/-- Witness for C2 at concrete steps and scratches: the cancel event clears
the session from each dialogue's states. -/
theorem C2_cancel_from_every_step_witness :
    handleActive create_party_conversation 0 [] (.callback .cancelBtn) =
      some ⟨none, []⟩ ∧
    handleActive add_filling_conversation 0 [("add_filling_party_id", Val.nat 1)]
      (.callback .cancelBtn) = some ⟨none, []⟩ ∧
    handleActive rename_filling_conversation 1 [] (.callback .cancelBtn) =
      some ⟨none, []⟩ ∧
    handleActive search_member_conversation 0 [] (.callback .cancelBtn) =
      some ⟨none, []⟩ ∧
    handleActive set_info_conversation 2 [("edit_info_party_id", Val.nat 1)]
      (.callback (.editPartyInfo 1)) = some ⟨none, []⟩ ∧
    handleActive invite_contact_conversation 10 [] (.callback (.inviteLink 1)) =
      some ⟨none, []⟩ ∧
    handleActive broadcast_conversation 20 [] (.callback .cancelBtn) =
      some ⟨none, []⟩ :=
  ⟨((C2_cancel_from_every_step 1 []).1 0 (by decide)).1,
   ((C2_cancel_from_every_step 1 [("add_filling_party_id", Val.nat 1)]).2.1 0
     (by decide)).1,
   ((C2_cancel_from_every_step 1 []).2.2.1 1 (by decide)).1,
   ((C2_cancel_from_every_step 1 []).2.2.2.1 0 (by decide)).1,
   ((C2_cancel_from_every_step 1 [("edit_info_party_id", Val.nat 1)]).2.2.2.2.1 2
     (by decide)).1,
   ((C2_cancel_from_every_step 1 []).2.2.2.2.2.1 10 (by decide)).1,
   ((C2_cancel_from_every_step 1 []).2.2.2.2.2.2 20 (by decide)).1⟩
